import Mathlib

/-!
Shallow embedding of the consul-ecs repository's engineering core:
the ACL-token reconciliation controller (package `controller`) and the
mesh-init command (package `meshinit`).

External clients (AWS ECS, AWS Secrets Manager, the Consul HTTP API) are
modelled as records of response functions; each Go method that mutates
external state additionally reports the successful mutations it performed
as a list of `Effect`s, so that sequences of reconciliation runs can be
replayed against an explicit `SystemState`.
-/

namespace ConsulEcs

/-- Error values: the Go code only ever inspects error *messages*
(`strings.Contains`), so errors are embedded as strings. -/
abbrev ErrMsg := String

/-- Helper for `strContains`: does the pattern occur as a leading block? -/
def leadBlock : List Char → List Char → Bool
  | [], _ => true
  | _ :: _, [] => false
  | p :: ps, c :: cs => p == c && leadBlock ps cs

/-- Helper for `strContains`: does the pattern occur anywhere? -/
def hasSub : List Char → List Char → Bool
  | p, [] => leadBlock p []
  | p, c :: cs => leadBlock p (c :: cs) || hasSub p cs

/-- Mirrors `strings.Contains` from the Go standard library. -/
def strContains (s pat : String) : Bool :=
  hasSub pat.toList s.toList

/-- Mirrors `api.ACLServiceIdentity` (only the field the repository reads). -/
structure ACLServiceIdentity where
  serviceName : String
deriving DecidableEq

/-- Mirrors `api.ACLToken` (the fields the repository reads or writes). -/
structure ACLToken where
  accessorID : String
  secretID : String
  description : String
  serviceIdentities : List ACLServiceIdentity
deriving DecidableEq

/-- Mirrors `tokenSecretJSON` from the controller: the JSON document
`accessor_id`/`token` stored in Secrets Manager. -/
structure TokenSecretJSON where
  accessor_id : String
  token : String
deriving DecidableEq

/-- The payloads this system ever stores in Secrets Manager: the canonical
empty object (written as a pair of braces in Go) or a marshalled
`tokenSecretJSON`. `json.Unmarshal` of either into `tokenSecretJSON`
cannot fail, so unmarshalling is total here. -/
inductive StoredSecret where
  | emptyObject
  | record (accessorID token : String)
deriving DecidableEq

/-- Mirrors `json.Unmarshal` into `tokenSecretJSON`: the empty object leaves
the struct zero-valued. -/
def unmarshalTokenSecret : StoredSecret → TokenSecretJSON
  | .emptyObject => ⟨"", ""⟩
  | .record a t => ⟨a, t⟩

/-- Mirrors `json.Marshal` of a `tokenSecretJSON` (never fails on this type). -/
def marshalTokenSecret (s : TokenSecretJSON) : StoredSecret :=
  .record s.accessor_id s.token

/-- First-match association lookup, the reading half of a Go map. -/
def assocFind {α : Type} : List (String × α) → String → Option α
  | [], _ => none
  | (k, v) :: rest, key => if k = key then some v else assocFind rest key

/-- The Consul not-found response text matched by `isACLNotFoundError`. -/
def aclNotFoundMsg : ErrMsg := "Unexpected response code: 403 (ACL not found)"

/-- Mirrors `isACLNotFoundError` (controller): the not-found signature is
detected by substring inspection of the error text. The `err != nil` guard
is implicit: only messages of actually-returned errors are inspected. -/
def isACLNotFoundError (e : ErrMsg) : Bool :=
  strContains e "Unexpected response code: 403 (ACL not found)"

/-- Mirrors `secretName` (controller): deterministic secret name
`prefix + "-" + family`. -/
def secretName (pfx family : String) : String :=
  pfx ++ "-" ++ family

/-- A successful external mutation performed by the controller. -/
inductive Effect where
  | tokenCreated (tok : ACLToken)
  | secretWritten (name : String) (value : StoredSecret)
  | tokenDeleted (accessorID : String)
deriving DecidableEq

/-- Responses of the Consul ACL endpoints the controller calls
(`TokenRead`, `TokenCreate`, `TokenDelete`, `TokenList`). The argument of
`tokenCreate` is the request token; the response is the token with
server-assigned accessor and secret IDs. -/
structure ConsulACL where
  tokenRead : String → Except ErrMsg ACLToken
  tokenCreate : ACLToken → Except ErrMsg ACLToken
  tokenDelete : String → Except ErrMsg Unit
  tokenListResp : Except ErrMsg (List ACLToken)

/-- Responses of the Secrets Manager endpoints the controller calls
(`GetSecretValue`, `UpdateSecret`). -/
structure SecretsManager where
  getSecretValue : String → Except ErrMsg StoredSecret
  updateSecret : String → StoredSecret → Except ErrMsg Unit

/-- Mirrors `TaskFamily.updateServiceToken`: create an ACL token carrying a
single service identity for the family, then overwrite the AWS secret with
the token's contents. Returns the Go result plus the successful mutations. -/
def updateServiceToken (acl : ConsulACL) (sm : SecretsManager)
    (pfx family : String) : Except ErrMsg Unit × List Effect :=
  let serviceName := family
  match acl.tokenCreate
      { accessorID := ""
        secretID := ""
        description := "Token for " ++ serviceName ++ " service"
        serviceIdentities := [⟨serviceName⟩] } with
  | .error e => (.error ("creating envoy token: " ++ e), [])
  | .ok serviceToken =>
    let serviceSecretValue :=
      marshalTokenSecret ⟨serviceToken.accessorID, serviceToken.secretID⟩
    match sm.updateSecret (secretName pfx family) serviceSecretValue with
    | .error e =>
      (.error ("updating secret: " ++ e), [.tokenCreated serviceToken])
    | .ok _ =>
      (.ok (),
        [.tokenCreated serviceToken,
         .secretWritten (secretName pfx family) serviceSecretValue])

/-- Mirrors the `currToken` computation inside `TaskFamily.Upsert`: when the
stored accessor is non-empty, read the token; a read error bearing the
not-found signature leaves `currToken` nil, any other read error aborts. -/
def readCurrToken (acl : ConsulACL) (currSecret : TokenSecretJSON) :
    Except ErrMsg (Option ACLToken) :=
  if currSecret.accessor_id ≠ "" then
    match acl.tokenRead currSecret.accessor_id with
    | .ok tok => .ok (some tok)
    | .error e =>
      if isACLNotFoundError e then .ok none
      else .error ("reading existing token: " ++ e)
  else .ok none

/-- Mirrors the error wrapping of the `updateServiceToken` call site in
`TaskFamily.Upsert`. -/
def wrapUpdateServiceTokenErr : Except ErrMsg Unit → Except ErrMsg Unit
  | .error e => .error ("updating service token: " ++ e)
  | .ok u => .ok u

/-- Mirrors `TaskFamily.Upsert`: fetch the family's secret, check whether the
referenced token still exists in Consul, and only when it does not, create a
token and update the secret. -/
def Upsert (acl : ConsulACL) (sm : SecretsManager)
    (pfx family : String) : Except ErrMsg Unit × List Effect :=
  match sm.getSecretValue (secretName pfx family) with
  | .error e => (.error ("retrieving secret: " ++ e), [])
  | .ok currSecretValue =>
    let currSecret := unmarshalTokenSecret currSecretValue
    match readCurrToken acl currSecret with
    | .error e => (.error e, [])
    | .ok (some _) => (.ok (), [])
    | .ok none =>
      let r := updateServiceToken acl sm pfx family
      (wrapUpdateServiceTokenErr r.1, r.2)

/-- Mirrors the token-deleting loop of `TaskDefinitionLister.DeleteTokenInfo`:
delete each listed token, aborting on the first failure. -/
def deleteTokens (acl : ConsulACL) :
    List ACLToken → Except ErrMsg Unit × List Effect
  | [] => (.ok (), [])
  | tok :: rest =>
    match acl.tokenDelete tok.accessorID with
    | .error e => (.error ("deleting token: " ++ e), [])
    | .ok _ =>
      let r := deleteTokens acl rest
      (r.1, .tokenDeleted tok.accessorID :: r.2)

/-- Mirrors `TaskDefinitionLister.DeleteTokenInfo`: delete every listed token
for the service, then overwrite the family's secret with the empty object. -/
def DeleteTokenInfo (acl : ConsulACL) (sm : SecretsManager)
    (pfx serviceName : String) (tokens : List ACLToken) :
    Except ErrMsg Unit × List Effect :=
  let secretNm := secretName pfx serviceName
  match deleteTokens acl tokens with
  | (.error e, effs) => (.error e, effs)
  | (.ok _, effs) =>
    match sm.updateSecret secretNm .emptyObject with
    | .error e => (.error ("updating secret: " ++ e), effs)
    | .ok _ => (.ok (), effs ++ [.secretWritten secretNm .emptyObject])

/-- Writing half of a Go map keyed by strings whose values are token lists:
`tokens[family] = append(tokens[family], token)`. -/
def mapAppend (m : List (String × List ACLToken)) (k : String)
    (tok : ACLToken) : List (String × List ACLToken) :=
  match m with
  | [] => [(k, [tok])]
  | (k0, v) :: rest =>
    if k0 = k then (k0, v ++ [tok]) :: rest else (k0, v) :: mapAppend rest k tok

/-- Convenience: the token list a grouped map holds under a key. -/
def mapGet (m : List (String × List ACLToken)) (k : String) : List ACLToken :=
  (assocFind m k).getD []

/-- Mirrors the per-entry loop of `TaskDefinitionLister.TokenList`: read every
listed token and group the single-service-identity ones by claimed family. -/
def tokenListLoop (acl : ConsulACL) :
    List ACLToken → List (String × List ACLToken) →
    Except ErrMsg (List (String × List ACLToken))
  | [], m => .ok m
  | tokenEntry :: rest, m =>
    match acl.tokenRead tokenEntry.accessorID with
    | .error e => .error ("reading token: " ++ e)
    | .ok token =>
      match token.serviceIdentities with
      | [si] => tokenListLoop acl rest (mapAppend m si.serviceName token)
      | _ => tokenListLoop acl rest m

/-- Mirrors `TaskDefinitionLister.TokenList`. -/
def TokenList (acl : ConsulACL) :
    Except ErrMsg (List (String × List ACLToken)) :=
  match acl.tokenListResp with
  | .error e => .error ("reading token list: " ++ e)
  | .ok tokenEntries => tokenListLoop acl tokenEntries []

/-- Mirrors `ecs.Tag`: both fields are pointers in the AWS SDK. -/
structure ECSTag where
  key : Option String
  value : Option String
deriving DecidableEq

/-- Mirrors `ecs.Task` (the fields the controller reads). -/
structure ECSTask where
  taskDefinitionArn : String
  tags : List ECSTag
deriving DecidableEq

/-- The `consul.hashicorp.com/mesh` tag key (constant `meshTag`). -/
def meshTag : String := "consul.hashicorp.com/mesh"

/-- Mirrors `tagValue` (controller). -/
def tagValue : List ECSTag → String → String
  | [], _ => ""
  | t :: rest, key =>
    match t.key with
    | some k => if k = key then (t.value.getD "") else tagValue rest key
    | none => tagValue rest key

/-- Mirrors `isMeshTask` (controller). -/
def isMeshTask (task : ECSTask) : Bool :=
  tagValue task.tags meshTag == "true"

/-- Mirrors `strings.Split` for a single-character separator (the only
separators the controller splits on). -/
def splitChars (sep : Char) : List Char → List (List Char)
  | [] => [[]]
  | x :: xs =>
    let rest := splitChars sep xs
    if x == sep then [] :: rest
    else
      match rest with
      | [] => [[x]]
      | g :: gs => (x :: g) :: gs

/-- Mirrors `strings.Split` of a string on a single-character separator. -/
def stringSplit (s : String) (sep : Char) : List String :=
  (splitChars sep s.toList).map (fun cs => ⟨cs⟩)

/-- Mirrors `parseFamilyNameFromTaskDefinitionARN` (controller): the ARN must
split on a slash into exactly two parts and the second part on a colon into
exactly two parts; the family is the first of those. -/
def parseFamilyNameFromTaskDefinitionARN (task : ECSTask) :
    Except ErrMsg String :=
  let taskDefArn := task.taskDefinitionArn
  match stringSplit taskDefArn '/' with
  | [_, taskFamilyAndRevision] =>
    match stringSplit taskFamilyAndRevision ':' with
    | [family, _] => .ok family
    | _ =>
      .error ("cannot determine task family from task definition ARN: "
        ++ taskDefArn)
  | _ =>
    .error ("cannot determine task family from task definition ARN: "
      ++ taskDefArn)

/-- The data a `TaskFamily` resource built by `TaskDefinitionLister.List`
carries (the injected AWS/Consul clients are the ambient environments). -/
structure TaskFamilyRes where
  cluster : String
  secretNamePfx : String
  taskFamily : String
deriving DecidableEq

/-- Mirrors the per-task loop body of `TaskDefinitionLister.List` over the
described tasks of one page: skip nil tasks and non-mesh tasks, parse the
family (aborting the whole listing on a parse error), and emit one resource
per first occurrence of a family. -/
def listTasksLoop (cluster pfx : String) :
    List (Option ECSTask) → List String → List TaskFamilyRes →
    Except ErrMsg (List String × List TaskFamilyRes)
  | [], taskFamilies, resources => .ok (taskFamilies, resources)
  | none :: rest, taskFamilies, resources =>
    listTasksLoop cluster pfx rest taskFamilies resources
  | some task :: rest, taskFamilies, resources =>
    if !isMeshTask task then
      listTasksLoop cluster pfx rest taskFamilies resources
    else
      match parseFamilyNameFromTaskDefinitionARN task with
      | .error e => .error ("parsing family from ARN: " ++ e)
      | .ok family =>
        if decide (family ∈ taskFamilies) then
          listTasksLoop cluster pfx rest taskFamilies resources
        else
          listTasksLoop cluster pfx rest (family :: taskFamilies)
            (resources ++ [⟨cluster, pfx, family⟩])

/-- Mirrors the pagination do-while of `TaskDefinitionLister.List`: the ECS
inventory answers `ListTasks`/`DescribeTasks` with one page per request and a
continuation token that is nil exactly after the last page, so the loop
consumes every page in order. -/
def listPagesLoop (cluster pfx : String) :
    List (List (Option ECSTask)) → List String → List TaskFamilyRes →
    Except ErrMsg (List String × List TaskFamilyRes)
  | [], taskFamilies, resources => .ok (taskFamilies, resources)
  | page :: rest, taskFamilies, resources =>
    match listTasksLoop cluster pfx page taskFamilies resources with
    | .error e => .error e
    | .ok (taskFamilies', resources') =>
      listPagesLoop cluster pfx rest taskFamilies' resources'

/-- Mirrors `TaskDefinitionLister.List`, with the paginated ECS responses
given as the sequence of pages of (possibly nil) described tasks. -/
def listerList (cluster pfx : String) (pages : List (List (Option ECSTask))) :
    Except ErrMsg (List TaskFamilyRes) :=
  match listPagesLoop cluster pfx pages [] [] with
  | .error e => .error e
  | .ok (_, resources) => .ok resources

/-! ### Replayable system state

`SystemState` holds the external state the controller converges: the live
Consul ACL tokens and the Secrets Manager store. The environments below
answer exactly as those services do over such a state. -/

structure SystemState where
  tokens : List ACLToken
  secrets : List (String × StoredSecret)
deriving DecidableEq

/-- Writing half of the secret store: replace the named secret, keeping the
store keyed uniquely by name. -/
def setSecret : List (String × StoredSecret) → String → StoredSecret →
    List (String × StoredSecret)
  | [], name, v => [(name, v)]
  | (k, w) :: rest, name, v =>
    if k = name then (k, v) :: rest else (k, w) :: setSecret rest name v

/-- The Consul ACL endpoints answering over a `SystemState`: reads find the
token by accessor ID or answer the 403 not-found response; creation succeeds
and assigns the given fresh accessor and secret IDs; deletion and listing
succeed. -/
def stateACL (st : SystemState) (fresh : ACLToken) : ConsulACL where
  tokenRead acc :=
    match st.tokens.find? (fun t => t.accessorID == acc) with
    | some t => .ok t
    | none => .error aclNotFoundMsg
  tokenCreate req :=
    .ok { accessorID := fresh.accessorID
          secretID := fresh.secretID
          description := req.description
          serviceIdentities := req.serviceIdentities }
  tokenDelete _ := .ok ()
  tokenListResp := .ok st.tokens

/-- Secrets Manager answering over a `SystemState`: reads of absent secrets
fail with the AWS not-found error, writes succeed. -/
def stateSM (st : SystemState) : SecretsManager where
  getSecretValue name :=
    match assocFind st.secrets name with
    | some v => .ok v
    | none => .error "ResourceNotFoundException: secret not found"
  updateSecret _ _ := .ok ()

/-- A placeholder token for call sites that never exercise `tokenCreate`. -/
def dummyToken : ACLToken := ⟨"", "", "", []⟩

/-- Replay one successful external mutation onto the state. -/
def applyEffect (st : SystemState) : Effect → SystemState
  | .tokenCreated tok => { st with tokens := st.tokens ++ [tok] }
  | .secretWritten name v => { st with secrets := setSecret st.secrets name v }
  | .tokenDeleted acc =>
    { st with tokens := st.tokens.filter (fun t => t.accessorID != acc) }

/-- Replay a list of successful external mutations onto the state. -/
def applyEffects (st : SystemState) (effs : List Effect) : SystemState :=
  effs.foldl applyEffect st

/-- One `Upsert` run for a family against the live state: the Consul and AWS
clients answer from `st`, and the mutations the run performs are replayed. -/
def upsertStep (st : SystemState) (pfx family : String) (fresh : ACLToken) :
    SystemState × Except ErrMsg Unit :=
  let r := Upsert (stateACL st fresh) (stateSM st) pfx family
  (applyEffects st r.2, r.1)

/-- Modelled from the spec: the reconcile driver (its file is not under
`src/`) handles an orphaned family by passing the family's group from the
`TokenList` result to `DeleteTokenInfo` — "delete every Credential under that
family, then overwrite its SecretRecord to the empty-object canonical
state". -/
def deleteStep (st : SystemState) (pfx family : String) :
    SystemState × Except ErrMsg Unit :=
  match TokenList (stateACL st dummyToken) with
  | .error e => (st, .error e)
  | .ok m =>
    let r := DeleteTokenInfo (stateACL st dummyToken) (stateSM st) pfx family
      (mapGet m family)
    (applyEffects st r.2, r.1)

/-- The controller-owned live credentials bound to a family: tokens carrying
exactly the single service-identity claim of that family (the shape
`updateServiceToken` issues and `TokenList` groups). -/
def liveFor (st : SystemState) (family : String) : List ACLToken :=
  st.tokens.filter (fun t => decide (t.serviceIdentities = [⟨family⟩]))

/-- Accessor IDs of all live tokens. -/
def accessorIDs (st : SystemState) : List String :=
  st.tokens.map (fun t => t.accessorID)

/-- The accessor recorded in a family's secret, when the secret exists. -/
def famSecretAcc (st : SystemState) (pfx family : String) : Option String :=
  (assocFind st.secrets (secretName pfx family)).map
    (fun s => (unmarshalTokenSecret s).accessor_id)

/-- The inductive invariant the controller maintains for a family, provided
its runs complete without partial failure: accessor IDs are unique, at most
one live controller-owned credential exists, and any live credential is the
one the family's secret references. -/
def Inv (pfx family : String) (st : SystemState) : Prop :=
  (accessorIDs st).Nodup ∧
  (liveFor st family).length ≤ 1 ∧
  ∀ t ∈ liveFor st family,
    t.accessorID ≠ "" ∧ famSecretAcc st pfx family = some t.accessorID

instance (pfx family : String) (st : SystemState) :
    Decidable (Inv pfx family st) := by
  unfold Inv; infer_instance

/-- One reconciliation action of the controller against the live state:
an `Upsert` for some family (with a server-assigned fresh accessor ID) or an
orphan cleanup for some family. -/
inductive reconcileStep (pfx : String) : SystemState → SystemState → Prop
  | upsert (st : SystemState) (family : String) (fresh : ACLToken)
      (hne : fresh.accessorID ≠ "")
      (hfr : fresh.accessorID ∉ accessorIDs st) :
      reconcileStep pfx st (upsertStep st pfx family fresh).1
  | delete (st : SystemState) (family : String) :
      reconcileStep pfx st (deleteStep st pfx family).1

/-! ### Mesh-init command (package `meshinit`)

Catalog-registration payload construction. Fields the claims never touch
(tags, weights, namespace, health checks, locality — locality additionally
depends on the process environment, not on anything under `src/`) are left
out of the `api` struct models; every modelled field follows the Go struct. -/

/-- Mirrors `api.ServiceAddress`. -/
structure ServiceAddress where
  address : String
  port : Int
deriving DecidableEq

/-- Mirrors `api.AgentServiceConnectProxyConfig` (modelled fields). -/
structure AgentServiceConnectProxyConfig where
  destinationServiceName : String
  destinationServiceID : String
  localServicePort : Int
deriving DecidableEq

/-- Mirrors `api.AgentService` (modelled fields). -/
structure AgentService where
  id : String
  service : String
  kind : String
  address : String
  port : Int
  meta : List (String × String)
  taggedAddresses : List (String × ServiceAddress)
  partition : String
  proxy : Option AgentServiceConnectProxyConfig
deriving DecidableEq

/-- Mirrors `api.CatalogRegistration` (modelled fields; the checks built by
`constructChecks` live outside `src/` and are unrelated to every claim). -/
structure CatalogRegistration where
  node : String
  nodeMeta : List (String × String)
  address : String
  service : AgentService
  partition : String
  skipNodeUpdate : Bool
deriving DecidableEq

/-- Mirrors `awsutil.ECSTaskMeta` as the command consumes it. `taskID` and
`nodeIP` stand for the `TaskID()`/`NodeIP()` accessors whose parsing lives in
the `awsutil` package outside `src/`; they are pure views of the metadata
snapshot. -/
structure ECSTaskMeta where
  family : String
  taskARN : String
  taskID : String
  nodeIP : String
deriving DecidableEq

/-- Mirrors `config.ServiceRegistration` (modelled fields). -/
structure ServiceRegistrationCfg where
  name : String
  port : Int
  meta : List (String × String)
  partition : String
deriving DecidableEq

/-- Modelled from the spec: `config.ServiceRegistration.ToConsulType` (the
`config` package is not under `src/`) maps the validated service
configuration onto a fresh `api.AgentService`; the orchestrator overwrites
id, name, meta and address afterwards. -/
def ServiceRegistrationCfg.toConsulType (s : ServiceRegistrationCfg) :
    AgentService :=
  { id := "", service := "", kind := "", address := "", port := s.port
    meta := s.meta, taggedAddresses := [], partition := s.partition
    proxy := none }

/-- Mirrors `config.GatewayRegistration` (modelled fields). -/
structure GatewayRegistration where
  kind : String
  name : String
  lanAddress : Option ServiceAddress
  wanAddress : Option ServiceAddress
  meta : List (String × String)
  partition : String
deriving DecidableEq

/-- Modelled from the spec: `config.GatewayRegistration.ToConsulType` (the
`config` package is not under `src/`) starts an `api.AgentService` of the
configured gateway kind; the orchestrator fills in id, name, address, meta,
port and tagged addresses afterwards. -/
def GatewayRegistration.toConsulType (g : GatewayRegistration) :
    AgentService :=
  { id := "", service := "", kind := g.kind, address := "", port := 0
    meta := [], taggedAddresses := [], partition := g.partition
    proxy := none }

/-- Mirrors `config.ProxyRegistration` (modelled field): the resolved public
listener port stands for `GetPublicListenerPort`. -/
structure ProxyCfg where
  publicListenerPort : Int
deriving DecidableEq

/-- Mirrors the parts of `config.Config` the payload constructors read. -/
structure Config where
  service : ServiceRegistrationCfg
  proxy : ProxyCfg
  gateway : Option GatewayRegistration
deriving DecidableEq

/-- Modelled from the spec: `config.Config.IsGateway` (the `config` package
is not under `src/`) — a gateway task is one whose configuration carries a
gateway section. -/
def Config.IsGateway (c : Config) : Bool := c.gateway.isSome

/-- Modelled from the spec: well-known mesh-gateway default port
(`config.DefaultGatewayPort`, not under `src/`). -/
def DefaultGatewayPort : Int := 8443

/-- Modelled from the spec: tagged-address key for the LAN address
(`config.TaggedAddressLAN`, not under `src/`). -/
def TaggedAddressLAN : String := "lan"

/-- Modelled from the spec: tagged-address key for the WAN address
(`config.TaggedAddressWAN`, not under `src/`). -/
def TaggedAddressWAN : String := "wan"

/-- Modelled from the spec: synthetic-node marker key
(`config.SyntheticNode`, not under `src/`). -/
def SyntheticNode : String := "synthetic-node"

/-- Mirrors `api.ServiceKindMeshGateway`. -/
def ServiceKindMeshGateway : String := "mesh-gateway"

/-- Mirrors `api.ServiceKindConnectProxy`. -/
def ServiceKindConnectProxy : String := "connect-proxy"

/-- Go-map insertion: `result[k] = v`. -/
def mapInsert (m : List (String × String)) (k v : String) :
    List (String × String) :=
  match m with
  | [] => [(k, v)]
  | (k0, w) :: rest =>
    if k0 = k then (k0, v) :: rest else (k0, w) :: mapInsert rest k v

/-- Mirrors `mergeMeta` (meshinit): copy `m1` into a fresh map, then copy
`m2`, so `m2` wins on shared keys. Go maps are embedded as association lists
with unique keys. -/
def mergeMeta (m1 m2 : List (String × String)) : List (String × String) :=
  let result := m1.foldl (fun r kv => mapInsert r kv.1 kv.2) []
  m2.foldl (fun r kv => mapInsert r kv.1 kv.2) result

/-- Mirrors `getNodeMeta` (meshinit). -/
def getNodeMeta : List (String × String) := [(SyntheticNode, "true")]

/-- Mirrors `makeServiceID` (meshinit). -/
def makeServiceID (serviceName taskID : String) : String :=
  serviceName ++ "-" ++ taskID

/-- Mirrors `makeProxySvcIDAndName` (meshinit). -/
def makeProxySvcIDAndName (serviceID serviceName : String) :
    String × String :=
  (serviceID ++ "-sidecar-proxy", serviceName ++ "-sidecar-proxy")

/-- Mirrors `Command.constructServiceName` (meshinit). -/
def constructServiceName (c : Config) (family : String) : String :=
  let configName :=
    if c.IsGateway then
      match c.gateway with
      | some g => g.name
      | none => ""
    else c.service.name
  if configName = "" then family.toLower else configName

/-- Mirrors `Command.constructCatalogRegistrationPayload` (meshinit). -/
def constructCatalogRegistrationPayload (service : AgentService)
    (taskMeta : ECSTaskMeta) (clusterARN : String) : CatalogRegistration :=
  { node := clusterARN
    nodeMeta := getNodeMeta
    address := taskMeta.nodeIP
    service := service
    partition := service.partition
    skipNodeUpdate := true }

/-- Mirrors `Command.constructServiceRegistration` (meshinit). -/
def constructServiceRegistration (c : Config) (taskMeta : ECSTaskMeta)
    (clusterARN : String) : CatalogRegistration :=
  let serviceName := constructServiceName c taskMeta.family
  let taskID := taskMeta.taskID
  let serviceID := makeServiceID serviceName taskID
  let fullMeta := mergeMeta
    [("task-id", taskID), ("task-arn", taskMeta.taskARN),
     ("source", "consul-ecs")]
    c.service.meta
  let service :=
    { c.service.toConsulType with
        id := serviceID
        service := serviceName
        meta := fullMeta
        address := taskMeta.nodeIP }
  constructCatalogRegistrationPayload service taskMeta clusterARN

/-- Mirrors `Command.constructProxyRegistration` (meshinit). -/
def constructProxyRegistration (c : Config)
    (serviceRegistration : CatalogRegistration) (taskMeta : ECSTaskMeta)
    (clusterARN : String) : CatalogRegistration :=
  let p := makeProxySvcIDAndName serviceRegistration.service.id
    serviceRegistration.service.service
  let proxyService : AgentService :=
    { id := p.1
      service := p.2
      kind := ServiceKindConnectProxy
      address := taskMeta.nodeIP
      port := c.proxy.publicListenerPort
      meta := serviceRegistration.service.meta
      taggedAddresses := []
      partition := serviceRegistration.service.partition
      proxy := some
        { destinationServiceID := serviceRegistration.service.id
          destinationServiceName := serviceRegistration.service.service
          localServicePort := serviceRegistration.service.port } }
  constructCatalogRegistrationPayload proxyService taskMeta clusterARN

/-- Mirrors the mesh-gateway address logic inside
`Command.constructGatewayProxyRegistration`: default the port, then apply the
LAN address (port override, address override plus LAN tagged address), then
the WAN address (tagged only when its host is non-empty, its port defaulting
to the gateway's resolved port). -/
def applyMeshGatewayAddresses (gw : GatewayRegistration)
    (gatewaySvc : AgentService) : AgentService :=
  let svc1 := { gatewaySvc with port := DefaultGatewayPort }
  let lanStep :=
    match gw.lanAddress with
    | some lanAddr =>
      let svc2 := if lanAddr.port > 0 then { svc1 with port := lanAddr.port }
        else svc1
      if lanAddr.address ≠ "" then
        ({ svc2 with address := lanAddr.address },
          [(TaggedAddressLAN, lanAddr)])
      else (svc2, [])
    | none => (svc1, [])
  let svc3 := lanStep.1
  let wanStep : List (String × ServiceAddress) :=
    match gw.wanAddress with
    | some wanAddr =>
      if wanAddr.address ≠ "" then
        let wanAddr' := if wanAddr.port = 0 then
            { wanAddr with port := svc3.port }
          else wanAddr
        (lanStep.2 ++ [(TaggedAddressWAN, wanAddr')])
      else lanStep.2
    | none => lanStep.2
  if wanStep.length > 0 then { svc3 with taggedAddresses := wanStep }
  else svc3

/-- Mirrors `Command.constructGatewayProxyRegistration` (meshinit). The Go
method dereferences `c.config.Gateway`, which its caller guarantees non-nil;
the embedding makes that partiality explicit with an `Option` result. -/
def constructGatewayProxyRegistration (c : Config) (taskMeta : ECSTaskMeta)
    (clusterARN : String) : Option CatalogRegistration :=
  match c.gateway with
  | none => none
  | some gw =>
    let serviceName := constructServiceName c taskMeta.family
    let taskID := taskMeta.taskID
    let serviceID := makeServiceID serviceName taskID
    let gatewaySvc :=
      { gw.toConsulType with
          id := serviceID
          service := serviceName
          address := taskMeta.nodeIP
          meta := mergeMeta
            [("task-id", taskID), ("task-arn", taskMeta.taskARN),
             ("source", "consul-ecs")]
            gw.meta }
    let gatewaySvc' :=
      if gw.kind = ServiceKindMeshGateway then
        applyMeshGatewayAddresses gw gatewaySvc
      else gatewaySvc
    some (constructCatalogRegistrationPayload gatewaySvc' taskMeta clusterARN)

/-! ### Association-list lemmas -/

theorem assocFind_eq_none_of_not_mem {α : Type} (m : List (String × α))
    (key : String) (h : key ∉ m.map Prod.fst) : assocFind m key = none := by
  induction m with
  | nil => rfl
  | cons kv rest ih =>
    simp only [List.map_cons, List.mem_cons] at h
    push_neg at h
    simp only [assocFind]
    rw [if_neg (fun he => h.1 he.symm)]
    exact ih h.2

theorem assocFind_mapInsert (m : List (String × String)) (k v key : String) :
    assocFind (mapInsert m k v) key
      = if key = k then some v else assocFind m key := by
  induction m with
  | nil =>
    simp only [mapInsert, assocFind]
    split_ifs with h1 h2 h3
    · rfl
    · exact absurd h1.symm h2
    · exact absurd h3.symm h1
    · rfl
  | cons kv rest ih =>
    obtain ⟨k0, w⟩ := kv
    simp only [mapInsert]
    by_cases h0 : k0 = k
    · subst h0
      simp only [if_pos rfl, assocFind]
      split_ifs with h1 h2 h3
      · rfl
      · exact absurd h1.symm h2
      · exact absurd h3.symm h1
      · rfl
    · simp only [if_neg h0, assocFind]
      by_cases h : k0 = key
      · rw [if_pos h, if_neg (show ¬key = k from fun he => h0 (h.trans he)),
          if_pos h]
      · rw [if_neg h, ih]
        by_cases hk : key = k
        · rw [if_pos hk, if_pos hk]
        · rw [if_neg hk, if_neg hk, if_neg h]

theorem assocFind_foldl_mapInsert (m acc : List (String × String))
    (key : String) (hm : (m.map Prod.fst).Nodup) :
    assocFind (m.foldl (fun r kv => mapInsert r kv.1 kv.2) acc) key
      = ((assocFind m key).rec (assocFind acc key) (fun v => some v)) := by
  induction m generalizing acc with
  | nil => rfl
  | cons kv rest ih =>
    obtain ⟨k, v⟩ := kv
    simp only [List.map_cons, List.nodup_cons] at hm
    simp only [List.foldl_cons]
    rw [ih (mapInsert acc k v) hm.2]
    simp only [assocFind, assocFind_mapInsert]
    by_cases h : k = key
    · subst h
      rw [if_pos rfl, assocFind_eq_none_of_not_mem rest k hm.1]
      simp
    · rw [if_neg h, if_neg (fun he : key = k => h he.symm)]

/-- The merged map is the key-wise union with the second map winning. -/
theorem assocFind_mergeMeta (m1 m2 : List (String × String)) (key : String)
    (h1 : (m1.map Prod.fst).Nodup) (h2 : (m2.map Prod.fst).Nodup) :
    assocFind (mergeMeta m1 m2) key
      = ((assocFind m2 key).rec (assocFind m1 key) (fun v => some v)) := by
  simp only [mergeMeta]
  rw [assocFind_foldl_mapInsert _ _ _ h2, assocFind_foldl_mapInsert _ _ _ h1]
  cases assocFind m2 key <;> cases assocFind m1 key <;> rfl

/-! ### Claim theorems for the mesh-init command -/

/-- C9: the service registration and the proxy registration constructed from
the same workload instance carry the same synthetic node name — the cluster
identifier — and the same node address. -/
theorem claim_C9_same_node_and_address (c : Config) (tm : ECSTaskMeta)
    (arn : String) :
    (constructServiceRegistration c tm arn).node
      = (constructProxyRegistration c (constructServiceRegistration c tm arn)
          tm arn).node ∧
    (constructServiceRegistration c tm arn).node = arn ∧
    (constructServiceRegistration c tm arn).address
      = (constructProxyRegistration c (constructServiceRegistration c tm arn)
          tm arn).address ∧
    (constructServiceRegistration c tm arn).address = tm.nodeIP := by
  simp [constructServiceRegistration, constructProxyRegistration,
    constructCatalogRegistrationPayload]

/-- C10: `mergeMeta` is the key-wise union of its arguments with the second
argument winning on shared keys; consequently a user-supplied `task-id`,
`task-arn` or `source` metadata entry overrides the orchestrator-reserved
one in the registered service's metadata. -/
theorem claim_C10_mergeMeta_second_wins (m1 m2 : List (String × String))
    (c : Config) (tm : ECSTaskMeta) (arn : String)
    (h1 : (m1.map Prod.fst).Nodup) (h2 : (m2.map Prod.fst).Nodup)
    (hc : (c.service.meta.map Prod.fst).Nodup) :
    (∀ key, assocFind (mergeMeta m1 m2) key
      = ((assocFind m2 key).rec (assocFind m1 key) (fun v => some v))) ∧
    (∀ key v, (key = "task-id" ∨ key = "task-arn" ∨ key = "source") →
      assocFind c.service.meta key = some v →
      assocFind (constructServiceRegistration c tm arn).service.meta key
        = some v) := by
  constructor
  · intro key
    exact assocFind_mergeMeta m1 m2 key h1 h2
  · intro key v _ hv
    have hres : (([("task-id", tm.taskID), ("task-arn", tm.taskARN),
        ("source", "consul-ecs")] : List (String × String)).map
          Prod.fst).Nodup := by
      simp only [List.map_cons, List.map_nil]
      decide
    simp only [constructServiceRegistration,
      constructCatalogRegistrationPayload]
    rw [assocFind_mergeMeta _ _ key hres hc, hv]

/-! ### Mesh-gateway address lemmas -/

theorem applyMeshGatewayAddresses_lan_no_wan (g : GatewayRegistration)
    (svc : AgentService) (la : ServiceAddress)
    (hlan : g.lanAddress = some la) (ha : la.address ≠ "") (hp : la.port > 0)
    (hwan : g.wanAddress = none) :
    applyMeshGatewayAddresses g svc
      = { svc with
            port := la.port
            address := la.address
            taggedAddresses := [(TaggedAddressLAN, la)] } := by
  simp [applyMeshGatewayAddresses, hlan, hwan, hp, ha]

theorem applyMeshGatewayAddresses_wan_port_defaults (g : GatewayRegistration)
    (svc : AgentService) (wa : ServiceAddress)
    (hwan : g.wanAddress = some wa) (ha : wa.address ≠ "")
    (hp : wa.port = 0) :
    assocFind (applyMeshGatewayAddresses g svc).taggedAddresses
        TaggedAddressWAN
      = some ⟨wa.address, (applyMeshGatewayAddresses g svc).port⟩ := by
  simp only [applyMeshGatewayAddresses, hwan, if_pos hp, if_pos ha]
  cases hl : g.lanAddress with
  | none => simp [assocFind, TaggedAddressWAN, TaggedAddressLAN]
  | some la =>
    by_cases hla : la.address = ""
    · simp [hla, assocFind, TaggedAddressWAN, TaggedAddressLAN]
    · by_cases hlp : la.port > 0 <;>
        simp [hla, hlp, assocFind, TaggedAddressWAN, TaggedAddressLAN]

/-- C8: a mesh-gateway with a LAN address whose host and port are set and no
WAN address yields a CatalogEntry whose service address is the LAN host,
whose service port is the LAN port, and whose only tagged address is the LAN
one; a WAN address with a non-empty host and port 0 is tagged with its port
defaulted to the gateway's resolved port. -/
theorem claim_C8_gateway_payload_shape
    (c1 c2 : Config) (g1 g2 : GatewayRegistration) (la wa : ServiceAddress)
    (tm : ECSTaskMeta) (arn : String) (reg1 reg2 : CatalogRegistration)
    (hg1 : c1.gateway = some g1) (hk1 : g1.kind = ServiceKindMeshGateway)
    (hlan1 : g1.lanAddress = some la) (hla : la.address ≠ "")
    (hlp : la.port > 0) (hwan1 : g1.wanAddress = none)
    (hreg1 : constructGatewayProxyRegistration c1 tm arn = some reg1)
    (hg2 : c2.gateway = some g2) (hk2 : g2.kind = ServiceKindMeshGateway)
    (hwan2 : g2.wanAddress = some wa) (hwa : wa.address ≠ "")
    (hwp : wa.port = 0)
    (hreg2 : constructGatewayProxyRegistration c2 tm arn = some reg2) :
    (reg1.service.address = la.address ∧ reg1.service.port = la.port ∧
      reg1.service.taggedAddresses = [(TaggedAddressLAN, la)]) ∧
    assocFind reg2.service.taggedAddresses TaggedAddressWAN
      = some ⟨wa.address, reg2.service.port⟩ := by
  constructor
  · simp only [constructGatewayProxyRegistration, hg1, if_pos hk1,
      Option.some.injEq] at hreg1
    rw [applyMeshGatewayAddresses_lan_no_wan g1 _ la hlan1 hla hlp hwan1]
      at hreg1
    subst hreg1
    simp [constructCatalogRegistrationPayload]
  · simp only [constructGatewayProxyRegistration, hg2, if_pos hk2,
      Option.some.injEq] at hreg2
    subst hreg2
    simpa [constructCatalogRegistrationPayload] using
      applyMeshGatewayAddresses_wan_port_defaults g2 _ wa hwan2 hwa hwp

/-! ### Claim theorems about Upsert -/

/-- C2: when the stored accessor references a token the control plane reports
as existing, Upsert performs no mutation at all and returns nil. -/
theorem claim_C2_upsert_idempotent (acl : ConsulACL) (sm : SecretsManager)
    (pfx family : String) (stored : StoredSecret) (tok : ACLToken)
    (hget : sm.getSecretValue (secretName pfx family) = .ok stored)
    (hacc : (unmarshalTokenSecret stored).accessor_id ≠ "")
    (hread : acl.tokenRead (unmarshalTokenSecret stored).accessor_id
      = .ok tok) :
    Upsert acl sm pfx family = (.ok (), []) := by
  simp [Upsert, readCurrToken, hget, hacc, hread]

/-- C4: a token-read error bearing the not-found signature lets issuance
proceed, while any other read error aborts the family's convergence with an
error and no credential issued. -/
theorem claim_C4_read_error_discrimination (acl : ConsulACL)
    (sm : SecretsManager) (pfx family : String) (stored : StoredSecret)
    (e : ErrMsg)
    (hget : sm.getSecretValue (secretName pfx family) = .ok stored)
    (hacc : (unmarshalTokenSecret stored).accessor_id ≠ "")
    (hread : acl.tokenRead (unmarshalTokenSecret stored).accessor_id
      = .error e) :
    (isACLNotFoundError e = true →
      Upsert acl sm pfx family
        = (wrapUpdateServiceTokenErr (updateServiceToken acl sm pfx family).1,
            (updateServiceToken acl sm pfx family).2)) ∧
    (isACLNotFoundError e = false →
      Upsert acl sm pfx family
        = (.error ("reading existing token: " ++ e), [])) := by
  constructor <;> intro hnf <;>
    simp [Upsert, readCurrToken, hget, hacc, hread, hnf]

/-- C7 as claimed is false: with no record stored under the family's
deterministic name, Upsert fails with the wrapped retrieval error and issues
nothing, instead of treating the family as having no credential. -/
theorem claim_C7_counterexample :
    Upsert (stateACL ⟨[], []⟩ dummyToken) (stateSM ⟨[], []⟩) "p" "web"
      = (.error
          "retrieving secret: ResourceNotFoundException: secret not found",
         []) := by
  rfl

/-- C7 amended: a stored empty object means "no credential" and Upsert
proceeds to issue a credential and write the record; an absent record,
however, aborts the family's convergence with a retrieval error. -/
theorem claim_C7_amended_empty_object_issues (st st2 : SystemState)
    (pfx family : String) (fresh : ACLToken)
    (hsec : assocFind st.secrets (secretName pfx family)
      = some .emptyObject)
    (hnone : assocFind st2.secrets (secretName pfx family) = none) :
    Upsert (stateACL st fresh) (stateSM st) pfx family
      = (.ok (),
         [.tokenCreated ⟨fresh.accessorID, fresh.secretID,
            "Token for " ++ family ++ " service", [⟨family⟩]⟩,
          .secretWritten (secretName pfx family)
            (.record fresh.accessorID fresh.secretID)]) ∧
    Upsert (stateACL st2 fresh) (stateSM st2) pfx family
      = (.error
          "retrieving secret: ResourceNotFoundException: secret not found",
         []) := by
  constructor
  · simp [Upsert, readCurrToken, updateServiceToken, stateSM, stateACL,
      hsec, unmarshalTokenSecret, marshalTokenSecret,
      wrapUpdateServiceTokenErr]
  · simp [Upsert, stateSM, hnone]

/-- C1 as claimed is false on the code: when the secret write of a first
Upsert fails after its token creation succeeded, the secret still holds the
empty object, so a second (fully successful) Upsert issues another token —
two live controller-owned credentials for the family. -/
theorem claim_C1_counterexample :
    (liveFor
      (upsertStep
        (applyEffects ⟨[], [("p-web", .emptyObject)]⟩
          (Upsert
            (stateACL ⟨[], [("p-web", .emptyObject)]⟩ ⟨"a1", "s1", "", []⟩)
            { getSecretValue :=
                (stateSM ⟨[], [("p-web", .emptyObject)]⟩).getSecretValue
              updateSecret := fun _ _ => .error "InternalServiceError" }
            "p" "web").2)
        "p" "web" ⟨"a2", "s2", "", []⟩).1
      "web").length = 2 := by
  rfl

/-! ### Pagination (claim C3) -/

/-- Mesh-tagged described tasks in listing order, reduced to their parsed
families. -/
def meshFams (tasks : List (Option ECSTask)) : List String :=
  ((tasks.filterMap id).filter isMeshTask).filterMap
    (fun t => (parseFamilyNameFromTaskDefinitionARN t).toOption)

/-- First-occurrence deduplication relative to an already-seen set. -/
def dedupFrom (seen : List String) : List String → List String
  | [] => []
  | x :: xs =>
    if x ∈ seen then dedupFrom seen xs else x :: dedupFrom (x :: seen) xs

/-- A described task never aborts the listing: it is nil, not mesh-tagged,
or its definition ARN parses. -/
def taskParses : Option ECSTask → Bool
  | none => true
  | some t =>
    !isMeshTask t || (parseFamilyNameFromTaskDefinitionARN t).toOption.isSome

theorem listTasksLoop_append (cluster pfx : String)
    (xs ys : List (Option ECSTask)) (fams : List String)
    (res : List TaskFamilyRes) :
    listTasksLoop cluster pfx (xs ++ ys) fams res
      = match listTasksLoop cluster pfx xs fams res with
        | .error e => .error e
        | .ok (f, r) => listTasksLoop cluster pfx ys f r := by
  induction xs generalizing fams res with
  | nil => rfl
  | cons x rest ih =>
    cases x with
    | none => simpa [listTasksLoop] using ih fams res
    | some task =>
      simp only [List.cons_append, listTasksLoop]
      by_cases hm : isMeshTask task
      · simp only [hm, Bool.not_true, Bool.false_eq_true, if_false]
        cases parseFamilyNameFromTaskDefinitionARN task with
        | error e => rfl
        | ok family =>
          by_cases hf : family ∈ fams
          · simpa [hf] using ih fams res
          · simpa [hf] using ih (family :: fams) (res ++ [⟨cluster, pfx, family⟩])
      · simpa [hm] using ih fams res

theorem listPagesLoop_flatten (cluster pfx : String)
    (pages : List (List (Option ECSTask))) (fams : List String)
    (res : List TaskFamilyRes) :
    listPagesLoop cluster pfx pages fams res
      = listTasksLoop cluster pfx pages.flatten fams res := by
  induction pages generalizing fams res with
  | nil => rfl
  | cons page rest ih =>
    simp only [List.flatten_cons, listPagesLoop, listTasksLoop_append]
    cases h : listTasksLoop cluster pfx page fams res with
    | error e => rfl
    | ok p => exact ih p.1 p.2

theorem listTasksLoop_spec (cluster pfx : String)
    (tasks : List (Option ECSTask)) (fams : List String)
    (res : List TaskFamilyRes) (hp : tasks.all taskParses = true) :
    listTasksLoop cluster pfx tasks fams res
      = .ok ((dedupFrom fams (meshFams tasks)).reverse ++ fams,
             res ++ (dedupFrom fams (meshFams tasks)).map
               (fun f => ⟨cluster, pfx, f⟩)) := by
  induction tasks generalizing fams res with
  | nil => simp [listTasksLoop, meshFams, dedupFrom]
  | cons x rest ih =>
    rw [List.all_cons, Bool.and_eq_true] at hp
    cases x with
    | none =>
      simpa [listTasksLoop, meshFams] using ih fams res hp.2
    | some task =>
      by_cases hm : isMeshTask task
      · have hps : (parseFamilyNameFromTaskDefinitionARN task).toOption.isSome
            = true := by
          have := hp.1
          simpa [taskParses, hm] using this
        obtain ⟨family, heq⟩ :
            ∃ fam, parseFamilyNameFromTaskDefinitionARN task = .ok fam := by
          cases hpe : parseFamilyNameFromTaskDefinitionARN task with
          | ok fam => exact ⟨fam, rfl⟩
          | error e => rw [hpe] at hps; simp [Except.toOption] at hps
        have hmesh : meshFams (some task :: rest)
            = family :: meshFams rest := by
          simp [meshFams, hm, heq, Except.toOption]
        rw [hmesh]
        simp only [listTasksLoop, hm, Bool.not_true, Bool.false_eq_true,
          if_false, heq]
        by_cases hf : family ∈ fams
        · simp only [dedupFrom, if_pos hf, decide_eq_true hf, if_true]
          exact ih fams res hp.2
        · simp only [dedupFrom, if_neg hf]
          have hd : decide (family ∈ fams) = false := by
            simpa using hf
          rw [hd]
          simp only [Bool.false_eq_true, if_false]
          rw [ih _ _ hp.2]
          simp
      · have hmesh : meshFams (some task :: rest) = meshFams rest := by
          simp [meshFams, hm]
        rw [hmesh]
        simpa [listTasksLoop, hm] using ih fams res hp.2

/-- C3: the lister follows pagination to exhaustion, keeps only mesh-tagged
tasks, emits exactly one resource per distinct family with the first
occurrence winning, and the outcome depends only on the concatenation of the
pages. -/
theorem claim_C3_pagination_exhaustive_dedup (cluster pfx : String)
    (pages : List (List (Option ECSTask)))
    (hp : pages.flatten.all taskParses = true) :
    listerList cluster pfx pages
      = .ok ((dedupFrom [] (meshFams pages.flatten)).map
          (fun f => ⟨cluster, pfx, f⟩)) ∧
    listerList cluster pfx pages = listerList cluster pfx [pages.flatten] := by
  have h1 : listerList cluster pfx pages
      = .ok ((dedupFrom [] (meshFams pages.flatten)).map
        (fun f => ⟨cluster, pfx, f⟩)) := by
    unfold listerList
    rw [listPagesLoop_flatten, listTasksLoop_spec cluster pfx _ [] [] hp]
    simp
  refine ⟨h1, ?_⟩
  rw [h1]
  unfold listerList
  have hj : ([pages.flatten] : List (List (Option ECSTask))).flatten
      = pages.flatten := by simp
  rw [listPagesLoop_flatten, hj, listTasksLoop_spec cluster pfx _ [] [] hp]
  simp

/-! ### Token grouping (claims C5, C6, C1) -/

/-- One step of the grouping `TokenList` performs over the listed tokens. -/
def groupStep (m : List (String × List ACLToken)) (token : ACLToken) :
    List (String × List ACLToken) :=
  match token.serviceIdentities with
  | [si] => mapAppend m si.serviceName token
  | _ => m

/-- The grouped map `TokenList` builds from a token listing. -/
def tokensGroup (ts : List ACLToken) : List (String × List ACLToken) :=
  ts.foldl groupStep []

/-- The tokens `TokenList` groups under a family: exactly the ones whose
identity-claim list is the single claim of that family. -/
def singlesFilter (family : String) (t : ACLToken) : Bool :=
  decide (t.serviceIdentities.map (fun si => si.serviceName) = [family])

theorem find?_accessor_self (tokens : List ACLToken) (t : ACLToken)
    (hnd : (tokens.map (fun u => u.accessorID)).Nodup) (ht : t ∈ tokens) :
    tokens.find? (fun u => u.accessorID == t.accessorID) = some t := by
  induction tokens with
  | nil => cases ht
  | cons u rest ih =>
    simp only [List.map_cons, List.nodup_cons] at hnd
    rcases List.mem_cons.mp ht with he | hm
    · subst he
      simp [List.find?_cons_of_pos]
    · have hne : (u.accessorID == t.accessorID) = false := by
        refine beq_eq_false_iff_ne.mpr (fun he => hnd.1 ?_)
        rw [he]
        exact List.mem_map_of_mem _ hm
      rw [List.find?_cons_of_neg _ (by simp [hne]), ih hnd.2 hm]

theorem stateACL_tokenRead_self (st : SystemState) (fresh t : ACLToken)
    (hnd : (accessorIDs st).Nodup) (ht : t ∈ st.tokens) :
    (stateACL st fresh).tokenRead t.accessorID = .ok t := by
  simp [stateACL, find?_accessor_self st.tokens t hnd ht]

theorem tokenListLoop_spec (acl : ConsulACL) (entries : List ACLToken)
    (m : List (String × List ACLToken))
    (hread : ∀ t ∈ entries, acl.tokenRead t.accessorID = .ok t) :
    tokenListLoop acl entries m = .ok (entries.foldl groupStep m) := by
  induction entries generalizing m with
  | nil => rfl
  | cons t rest ih =>
    have hrest : ∀ u ∈ rest, acl.tokenRead u.accessorID = .ok u :=
      fun u hu => hread u (List.mem_cons_of_mem _ hu)
    simp only [tokenListLoop, hread t (List.mem_cons_self t rest),
      List.foldl_cons]
    rcases hsi : t.serviceIdentities with _ | ⟨si, _ | ⟨si2, sis⟩⟩ <;>
      simp only [groupStep, hsi] <;> exact ih _ hrest

theorem TokenList_stateACL (st : SystemState) (fresh : ACLToken)
    (hnd : (accessorIDs st).Nodup) :
    TokenList (stateACL st fresh) = .ok (tokensGroup st.tokens) := by
  have : (stateACL st fresh).tokenListResp = .ok st.tokens := rfl
  rw [TokenList, this]
  exact tokenListLoop_spec _ _ _
    (fun t ht => stateACL_tokenRead_self st fresh t hnd ht)

theorem mapGet_mapAppend (m : List (String × List ACLToken))
    (k k' : String) (tok : ACLToken) :
    mapGet (mapAppend m k tok) k'
      = if k' = k then mapGet m k' ++ [tok] else mapGet m k' := by
  induction m with
  | nil =>
    simp only [mapAppend, mapGet, assocFind]
    split_ifs with h1 h2 h3
    · simp
    · exact absurd h1.symm h2
    · exact absurd h3.symm h1
    · simp
  | cons kv rest ih =>
    obtain ⟨k0, v⟩ := kv
    simp only [mapAppend]
    by_cases h0 : k0 = k
    · subst h0
      simp only [if_pos rfl, mapGet, assocFind]
      split_ifs with h1 h2 h3
      · simp
      · exact absurd h1.symm h2
      · exact absurd h3.symm h1
      · simp
    · simp only [if_neg h0, mapGet, assocFind]
      by_cases h : k0 = k'
      · rw [if_pos h, if_neg (show ¬k' = k from fun he => h0 (h.trans he)),
          if_pos h]
      · rw [if_neg h, if_neg h]
        by_cases hk : k' = k
        · rw [if_pos hk]
          have := ih
          simp only [mapGet] at this
          rw [this, if_pos hk]
        · rw [if_neg hk]
          have := ih
          simp only [mapGet] at this
          rw [this, if_neg hk]

theorem mapGet_foldl_groupStep (ts : List ACLToken)
    (m : List (String × List ACLToken)) (family : String) :
    mapGet (ts.foldl groupStep m) family
      = mapGet m family ++ ts.filter (singlesFilter family) := by
  induction ts generalizing m with
  | nil => simp
  | cons t rest ih =>
    simp only [List.foldl_cons, List.filter_cons]
    rw [ih]
    rcases hsi : t.serviceIdentities with _ | ⟨si, _ | ⟨si2, sis⟩⟩
    · have hf : singlesFilter family t = false := by
        simp [singlesFilter, hsi]
      simp only [groupStep, hsi, hf, Bool.false_eq_true, if_false]
    · simp only [groupStep, hsi, mapGet_mapAppend]
      by_cases he : si.serviceName = family
      · have hf : singlesFilter family t = true := by
          simp [singlesFilter, hsi, he]
        rw [if_pos he.symm, hf]
        simp
      · have hf : singlesFilter family t = false := by
          simp [singlesFilter, hsi, he]
        rw [if_neg (fun hfe : family = si.serviceName => he hfe.symm), hf]
        simp
    · have hf : singlesFilter family t = false := by
        simp [singlesFilter, hsi]
      simp only [groupStep, hsi, hf, Bool.false_eq_true, if_false]

theorem mapGet_tokensGroup (ts : List ACLToken) (family : String) :
    mapGet (tokensGroup ts) family = ts.filter (singlesFilter family) := by
  rw [tokensGroup, mapGet_foldl_groupStep]
  rfl

/-! ### Replaying the controller's mutations -/

theorem deleteTokens_stateACL (st : SystemState) (fresh : ACLToken)
    (toks : List ACLToken) :
    deleteTokens (stateACL st fresh) toks
      = (.ok (), toks.map (fun tok => .tokenDeleted tok.accessorID)) := by
  induction toks with
  | nil => rfl
  | cons tok rest ih =>
    have hd : (stateACL st fresh).tokenDelete tok.accessorID = .ok () := rfl
    simp [deleteTokens, hd, ih]

theorem DeleteTokenInfo_stateACL (st : SystemState) (fresh : ACLToken)
    (pfx serviceName : String) (toks : List ACLToken) :
    DeleteTokenInfo (stateACL st fresh) (stateSM st) pfx serviceName toks
      = (.ok (),
         toks.map (fun tok => .tokenDeleted tok.accessorID)
           ++ [.secretWritten (secretName pfx serviceName) .emptyObject]) := by
  simp [DeleteTokenInfo, deleteTokens_stateACL, stateSM]

theorem applyEffects_append (st : SystemState) (l1 l2 : List Effect) :
    applyEffects st (l1 ++ l2) = applyEffects (applyEffects st l1) l2 :=
  List.foldl_append applyEffect st l1 l2

theorem applyEffects_deleteList (st : SystemState) (accs : List String) :
    applyEffects st (accs.map Effect.tokenDeleted)
      = { st with tokens :=
            st.tokens.filter (fun t => decide (t.accessorID ∉ accs)) } := by
  induction accs generalizing st with
  | nil =>
    simp only [List.map_nil, applyEffects, List.foldl_nil]
    have : st.tokens.filter (fun t => decide (t.accessorID ∉ ([] : List String)))
        = st.tokens := by
      simp
    rw [this]
  | cons a rest ih =>
    simp only [List.map_cons, applyEffects, List.foldl_cons]
    rw [show List.foldl applyEffect (applyEffect st (Effect.tokenDeleted a))
        (rest.map Effect.tokenDeleted)
      = applyEffects (applyEffect st (Effect.tokenDeleted a))
        (rest.map Effect.tokenDeleted) from rfl]
    rw [ih]
    simp only [applyEffect]
    congr 1
    rw [List.filter_filter]
    refine List.filter_congr (fun t _ => ?_)
    by_cases h : t.accessorID = a
    · simp [h]
    · by_cases h2 : t.accessorID ∈ rest <;> simp [h, h2]

theorem assocFind_setSecret (s : List (String × StoredSecret))
    (name : String) (v : StoredSecret) (key : String) :
    assocFind (setSecret s name v) key
      = if key = name then some v else assocFind s key := by
  induction s with
  | nil =>
    simp only [setSecret, assocFind]
    split_ifs with h1 h2 h3
    · rfl
    · exact absurd h1.symm h2
    · exact absurd h3.symm h1
    · rfl
  | cons kv rest ih =>
    obtain ⟨k0, w⟩ := kv
    simp only [setSecret]
    by_cases h0 : k0 = name
    · subst h0
      simp only [if_pos rfl, assocFind]
      split_ifs with h1 h2 h3
      · rfl
      · exact absurd h1.symm h2
      · exact absurd h3.symm h1
      · rfl
    · simp only [if_neg h0, assocFind]
      by_cases h : k0 = key
      · rw [if_pos h, if_neg (show ¬key = name from fun he => h0 (h.trans he)),
          if_pos h]
      · rw [if_neg h, ih]
        by_cases hk : key = name
        · rw [if_pos hk, if_pos hk]
        · rw [if_neg hk, if_neg hk, if_neg h]

theorem secretName_inj (pfx f1 f2 : String)
    (h : secretName pfx f1 = secretName pfx f2) : f1 = f2 := by
  have h2 : (pfx ++ "-").data ++ f1.data = (pfx ++ "-").data ++ f2.data :=
    congrArg String.data h
  have h3 := List.append_cancel_left h2
  cases f1
  cases f2
  exact congrArg String.mk h3

/-- What orphan cleanup does to the state: under unique accessor IDs it
removes exactly the tokens `TokenList` grouped under the family and resets
the family's secret to the empty object, reporting success. -/
theorem deleteStep_eq (st : SystemState) (pfx family : String)
    (hnd : (accessorIDs st).Nodup) :
    deleteStep st pfx family
      = ({ tokens := st.tokens.filter (fun t => decide (t.accessorID ∉
             (st.tokens.filter (singlesFilter family)).map
               (fun u => u.accessorID)))
           secrets := setSecret st.secrets (secretName pfx family)
             .emptyObject },
         .ok ()) := by
  rw [deleteStep, TokenList_stateACL st dummyToken hnd]
  simp only [mapGet_tokensGroup, DeleteTokenInfo_stateACL,
    applyEffects_append]
  rw [show ((st.tokens.filter (singlesFilter family)).map
      (fun tok => Effect.tokenDeleted tok.accessorID))
    = ((st.tokens.filter (singlesFilter family)).map
        (fun u => u.accessorID)).map Effect.tokenDeleted from by
      rw [List.map_map]
      rfl]
  rw [applyEffects_deleteList]
  rfl

theorem deleteTokens_effects_deletes (acl : ConsulACL)
    (toks : List ACLToken) :
    ∀ eff ∈ (deleteTokens acl toks).2, ∃ a, eff = Effect.tokenDeleted a := by
  induction toks with
  | nil => simp [deleteTokens]
  | cons tok rest ih =>
    simp only [deleteTokens]
    cases acl.tokenDelete tok.accessorID with
    | error e => simp
    | ok u =>
      intro eff heff
      rcases List.mem_cons.mp heff with he | hm
      · exact ⟨tok.accessorID, he⟩
      · exact ih eff hm

theorem DeleteTokenInfo_delete_error (acl : ConsulACL) (sm : SecretsManager)
    (pfx sn : String) (toks : List ACLToken) (e : ErrMsg)
    (h : (deleteTokens acl toks).1 = .error e) :
    DeleteTokenInfo acl sm pfx sn toks = (.error e, (deleteTokens acl toks).2) := by
  rw [DeleteTokenInfo]
  rcases hdt : deleteTokens acl toks with ⟨r1, effs⟩
  rw [hdt] at h
  simp only at h
  subst h
  rfl

/-- C5: orphan cleanup deletes every listed credential before the secret
overwrite, leaves zero live controller-owned credentials for the family and
the empty-object secret record, and skips the overwrite entirely when any
credential deletion fails. -/
theorem claim_C5_orphan_cleanup (st : SystemState) (pfx family : String)
    (hnd : (accessorIDs st).Nodup) :
    ((deleteStep st pfx family).2 = .ok () ∧
     liveFor (deleteStep st pfx family).1 family = [] ∧
     assocFind (deleteStep st pfx family).1.secrets (secretName pfx family)
       = some .emptyObject) ∧
    (∀ toks : List ACLToken,
      DeleteTokenInfo (stateACL st dummyToken) (stateSM st) pfx family toks
        = (.ok (),
           toks.map (fun tok => .tokenDeleted tok.accessorID)
             ++ [.secretWritten (secretName pfx family) .emptyObject])) ∧
    (∀ (acl : ConsulACL) (sm : SecretsManager) (sn : String)
        (toks : List ACLToken) (e : ErrMsg),
      (deleteTokens acl toks).1 = .error e →
      (DeleteTokenInfo acl sm pfx sn toks).1 = .error e ∧
      ∀ n v, Effect.secretWritten n v ∉ (DeleteTokenInfo acl sm pfx sn toks).2) := by
  refine ⟨?_, fun toks => DeleteTokenInfo_stateACL st dummyToken pfx family toks, ?_⟩
  · rw [deleteStep_eq st pfx family hnd]
    refine ⟨rfl, ?_, by simp [assocFind_setSecret]⟩
    rw [liveFor]
    rw [List.filter_eq_nil_iff]
    intro t ht hlive
    have htmem := (List.mem_filter.mp ht).1
    have htq := (List.mem_filter.mp ht).2
    have hsing : singlesFilter family t = true := by
      have hids : t.serviceIdentities = [⟨family⟩] := of_decide_eq_true hlive
      simp [singlesFilter, hids]
    have hin : t.accessorID ∈ (st.tokens.filter (singlesFilter family)).map
        (fun u => u.accessorID) :=
      List.mem_map_of_mem _ (List.mem_filter.mpr ⟨htmem, hsing⟩)
    rw [decide_eq_true_eq] at htq
    exact htq hin
  · intro acl sm sn toks e hdel
    rw [DeleteTokenInfo_delete_error acl sm pfx sn toks e hdel]
    refine ⟨rfl, fun n v hmem => ?_⟩
    obtain ⟨a, ha⟩ := deleteTokens_effects_deletes acl toks _ hmem
    exact Effect.noConfusion ha

/-- C6: `TokenList` groups exactly the single-identity-claim tokens, keyed by
the claimed family with duplicates aggregated; tokens with zero or multiple
claims are in no group and survive orphan cleanup untouched. -/
theorem claim_C6_single_claim_grouping (st : SystemState) (fresh : ACLToken)
    (pfx : String) (hnd : (accessorIDs st).Nodup) :
    TokenList (stateACL st fresh) = .ok (tokensGroup st.tokens) ∧
    (∀ family, mapGet (tokensGroup st.tokens) family
      = st.tokens.filter (singlesFilter family)) ∧
    (∀ family t, t ∈ st.tokens → t.serviceIdentities.length ≠ 1 →
      t ∈ (deleteStep st pfx family).1.tokens) := by
  refine ⟨TokenList_stateACL st fresh hnd,
    fun family => mapGet_tokensGroup _ _, ?_⟩
  intro family t ht hlen
  rw [deleteStep_eq st pfx family hnd]
  refine List.mem_filter.mpr ⟨ht, ?_⟩
  rw [decide_eq_true_eq]
  intro hmem
  obtain ⟨u, hu, hue⟩ := List.mem_map.mp hmem
  have humem := (List.mem_filter.mp hu).1
  have husing := (List.mem_filter.mp hu).2
  have huid : u = t := List.inj_on_of_nodup_map hnd humem ht hue
  have : u.serviceIdentities.map (fun si => si.serviceName) = [family] :=
    of_decide_eq_true husing
  apply hlen
  rw [← huid]
  have := congrArg List.length this
  simpa using this

/-! ### The at-most-one-live-credential invariant (claim C1) -/

theorem isACLNotFoundError_self : isACLNotFoundError aclNotFoundMsg = true := by
  decide

/-- The token an `Upsert` issues on the state environments: the controller's
request carrying the family claim, with the server-assigned fresh IDs. -/
def issuedToken (family : String) (fresh : ACLToken) : ACLToken :=
  ⟨fresh.accessorID, fresh.secretID,
    "Token for " ++ family ++ " service", [⟨family⟩]⟩

/-- The state after a credential issuance for a family. -/
def createdState (st : SystemState) (pfx family : String)
    (fresh : ACLToken) : SystemState :=
  { tokens := st.tokens ++ [issuedToken family fresh],
    secrets := setSecret st.secrets (secretName pfx family)
      (.record fresh.accessorID fresh.secretID) }

/-- The state after orphan cleanup of a family. -/
def cleanedState (st : SystemState) (pfx family : String) : SystemState :=
  { tokens := st.tokens.filter (fun t => decide (t.accessorID ∉
      (st.tokens.filter (singlesFilter family)).map (fun u => u.accessorID))),
    secrets := setSecret st.secrets (secretName pfx family) .emptyObject }

theorem deleteStep_fst (st : SystemState) (pfx family : String)
    (hnd : (accessorIDs st).Nodup) :
    (deleteStep st pfx family).1 = cleanedState st pfx family := by
  rw [deleteStep_eq st pfx family hnd]
  rfl

/-- An `Upsert` run against the live state either leaves the state unchanged
(no secret, or the referenced token still exists) or — exactly when the
stored accessor is empty or the referenced token is gone — appends the
issued token and points the family's secret at it. -/
theorem upsertStep_result (st : SystemState) (pfx family : String)
    (fresh : ACLToken) :
    (upsertStep st pfx family fresh).1 = st ∨
    ((∃ stored, assocFind st.secrets (secretName pfx family) = some stored ∧
        ((unmarshalTokenSecret stored).accessor_id = "" ∨
         st.tokens.find? (fun t => t.accessorID ==
           (unmarshalTokenSecret stored).accessor_id) = none)) ∧
     (upsertStep st pfx family fresh).1
       = createdState st pfx family fresh) := by
  cases hsec : assocFind st.secrets (secretName pfx family) with
  | none =>
    left
    simp [upsertStep, Upsert, stateSM, hsec, applyEffects]
  | some stored =>
    by_cases ha : (unmarshalTokenSecret stored).accessor_id = ""
    · right
      refine ⟨⟨stored, rfl, Or.inl ha⟩, ?_⟩
      simp [upsertStep, Upsert, stateSM, stateACL, hsec, readCurrToken, ha,
        updateServiceToken, wrapUpdateServiceTokenErr, marshalTokenSecret,
        applyEffects, applyEffect, issuedToken, createdState]
    · cases hfind : st.tokens.find? (fun t => t.accessorID ==
          (unmarshalTokenSecret stored).accessor_id) with
      | some tok =>
        left
        simp [upsertStep, Upsert, stateSM, stateACL, hsec, readCurrToken, ha,
          hfind, applyEffects]
      | none =>
        right
        refine ⟨⟨stored, rfl, Or.inr hfind⟩, ?_⟩
        simp [upsertStep, Upsert, stateSM, stateACL, hsec, readCurrToken, ha,
          hfind, isACLNotFoundError_self, updateServiceToken,
          wrapUpdateServiceTokenErr, marshalTokenSecret, applyEffects,
          applyEffect, issuedToken, createdState]

theorem liveFor_cleanedState_self (st : SystemState) (pfx family : String) :
    liveFor (cleanedState st pfx family) family = [] := by
  simp only [cleanedState, liveFor]
  rw [List.filter_eq_nil_iff]
  intro t ht hlive
  have htmem := (List.mem_filter.mp ht).1
  have htq := (List.mem_filter.mp ht).2
  have hsing : singlesFilter family t = true := by
    have hids : t.serviceIdentities = [⟨family⟩] := of_decide_eq_true hlive
    simp [singlesFilter, hids]
  rw [decide_eq_true_eq] at htq
  exact htq (List.mem_map_of_mem _ (List.mem_filter.mpr ⟨htmem, hsing⟩))

theorem liveFor_cleanedState_sublist (st : SystemState) (pfx family fam : String) :
    (liveFor (cleanedState st pfx family) fam).Sublist (liveFor st fam) := by
  simp only [cleanedState, liveFor]
  exact (List.filter_sublist st.tokens).filter _

theorem famSecretAcc_cleanedState_other (st : SystemState)
    (pfx family fam : String) (hff : ¬family = fam) :
    famSecretAcc (cleanedState st pfx family) pfx fam
      = famSecretAcc st pfx fam := by
  simp only [cleanedState, famSecretAcc]
  rw [assocFind_setSecret]
  rw [if_neg (fun he : secretName pfx fam = secretName pfx family =>
    hff (secretName_inj pfx fam family he).symm)]

/-- Orphan cleanup preserves the invariant for every family. -/
theorem inv_delete (pfx fam family : String) (st : SystemState)
    (hInv : Inv pfx fam st) : Inv pfx fam (deleteStep st pfx family).1 := by
  obtain ⟨hnd, hlen, hall⟩ := hInv
  rw [deleteStep_fst st pfx family hnd]
  have hnd' : (accessorIDs (cleanedState st pfx family)).Nodup := by
    simp only [cleanedState, accessorIDs]
    exact List.Nodup.sublist ((List.filter_sublist st.tokens).map _) hnd
  refine ⟨hnd', ?_, ?_⟩
  · by_cases hff : family = fam
    · subst hff
      rw [liveFor_cleanedState_self]
      simp
    · exact le_trans (liveFor_cleanedState_sublist st pfx family fam).length_le
        hlen
  · intro t ht
    by_cases hff : family = fam
    · subst hff
      rw [liveFor_cleanedState_self] at ht
      cases ht
    · have ht' := (liveFor_cleanedState_sublist st pfx family fam).subset ht
      refine ⟨(hall t ht').1, ?_⟩
      rw [famSecretAcc_cleanedState_other st pfx family fam hff]
      exact (hall t ht').2

theorem liveFor_createdState_self (st : SystemState) (pfx family : String)
    (fresh : ACLToken) (hl0 : liveFor st family = []) :
    liveFor (createdState st pfx family fresh) family
      = [issuedToken family fresh] := by
  simp only [createdState, liveFor] at hl0 ⊢
  rw [List.filter_append, hl0, List.nil_append]
  simp [issuedToken]

theorem liveFor_createdState_other (st : SystemState) (pfx family fam : String)
    (fresh : ACLToken) (hff : ¬family = fam) :
    liveFor (createdState st pfx family fresh) fam = liveFor st fam := by
  simp only [createdState, liveFor]
  rw [List.filter_append]
  have : List.filter (fun t => decide (t.serviceIdentities = [⟨fam⟩]))
      [issuedToken family fresh] = [] := by
    simp [issuedToken, hff]
  rw [this, List.append_nil]

theorem famSecretAcc_createdState_self (st : SystemState) (pfx family : String)
    (fresh : ACLToken) :
    famSecretAcc (createdState st pfx family fresh) pfx family
      = some fresh.accessorID := by
  simp [createdState, famSecretAcc, assocFind_setSecret, unmarshalTokenSecret]

theorem famSecretAcc_createdState_other (st : SystemState)
    (pfx family fam : String) (fresh : ACLToken) (hff : ¬family = fam) :
    famSecretAcc (createdState st pfx family fresh) pfx fam
      = famSecretAcc st pfx fam := by
  simp only [createdState, famSecretAcc]
  rw [assocFind_setSecret]
  rw [if_neg (fun he : secretName pfx fam = secretName pfx family =>
    hff (secretName_inj pfx fam family he).symm)]

/-- Appending a freshly issued token for a family whose live set is empty
preserves the invariant for every family. -/
theorem inv_create (pfx fam family : String) (st : SystemState)
    (fresh : ACLToken) (hne : fresh.accessorID ≠ "")
    (hfr : fresh.accessorID ∉ accessorIDs st) (hInv : Inv pfx fam st)
    (hlive : family = fam → liveFor st fam = []) :
    Inv pfx fam (createdState st pfx family fresh) := by
  obtain ⟨hnd, hlen, hall⟩ := hInv
  have hnd' : (accessorIDs (createdState st pfx family fresh)).Nodup := by
    simp only [createdState, accessorIDs, List.map_append]
    rw [List.nodup_append]
    refine ⟨hnd, by simp, ?_⟩
    simp only [issuedToken, List.map_cons, List.map_nil,
      List.disjoint_singleton]
    exact hfr
  by_cases hff : family = fam
  · subst hff
    have hl0 : liveFor st family = [] := hlive rfl
    refine ⟨hnd', ?_, ?_⟩
    · rw [liveFor_createdState_self st pfx family fresh hl0]
      simp
    · intro t ht
      rw [liveFor_createdState_self st pfx family fresh hl0] at ht
      rcases List.mem_singleton.mp ht with rfl
      exact ⟨hne, famSecretAcc_createdState_self st pfx family fresh⟩
  · refine ⟨hnd', ?_, ?_⟩
    · rw [liveFor_createdState_other st pfx family fam fresh hff]
      exact hlen
    · intro t ht
      rw [liveFor_createdState_other st pfx family fam fresh hff] at ht
      rw [famSecretAcc_createdState_other st pfx family fam fresh hff]
      exact hall t ht

/-- An `Upsert` run preserves the invariant for every family. -/
theorem inv_upsert (pfx fam family : String) (st : SystemState)
    (fresh : ACLToken) (hne : fresh.accessorID ≠ "")
    (hfr : fresh.accessorID ∉ accessorIDs st) (hInv : Inv pfx fam st) :
    Inv pfx fam (upsertStep st pfx family fresh).1 := by
  rcases upsertStep_result st pfx family fresh with heq |
    ⟨⟨stored, hsec, hcase⟩, heq⟩
  · rw [heq]; exact hInv
  · rw [heq]
    refine inv_create pfx fam family st fresh hne hfr
      ⟨hInv.1, hInv.2.1, hInv.2.2⟩ ?_
    intro hff
    subst hff
    rw [List.eq_nil_iff_forall_not_mem]
    intro t ht
    have hacc := (hInv.2.2 t ht).2
    have hneq := (hInv.2.2 t ht).1
    have hsa : famSecretAcc st pfx family
        = some (unmarshalTokenSecret stored).accessor_id := by
      simp [famSecretAcc, hsec]
    rw [hsa] at hacc
    have hta : t.accessorID = (unmarshalTokenSecret stored).accessor_id :=
      Option.some.inj hacc.symm
    rcases hcase with ha | hfind
    · exact hneq (hta.trans ha)
    · have htmem : t ∈ st.tokens := (List.mem_filter.mp ht).1
      have hf := List.find?_eq_none.mp hfind t htmem
      rw [hta] at hf
      simp at hf

theorem reconcileStep_inv (pfx fam : String) {st st' : SystemState}
    (h : reconcileStep pfx st st') (hInv : Inv pfx fam st) :
    Inv pfx fam st' := by
  cases h with
  | upsert family fresh hne hfr =>
    exact inv_upsert pfx fam family _ fresh hne hfr hInv
  | delete family => exact inv_delete pfx fam family _ hInv

/-- C1 amended: provided every run completes without partial failure (the
state environments make each issued credential's secret write succeed, and
server-assigned accessor IDs are fresh and non-empty), any sequence of
Upsert and orphan-cleanup runs keeps at most one live controller-owned
credential per family; and against arbitrary environments, Upsert only
creates a credential when the stored accessor is empty or the referenced
credential read fails with the not-found signature. -/
theorem claim_C1_amended_at_most_one_live (pfx family : String)
    (st st' : SystemState) (h0 : Inv pfx family st)
    (hsteps : Relation.ReflTransGen (reconcileStep pfx) st st') :
    (liveFor st' family).length ≤ 1 ∧
    (∀ (acl : ConsulACL) (sm : SecretsManager) (tok : ACLToken),
      Effect.tokenCreated tok ∈ (Upsert acl sm pfx family).2 →
      ∃ stored, sm.getSecretValue (secretName pfx family) = .ok stored ∧
        ((unmarshalTokenSecret stored).accessor_id = "" ∨
         ∃ e, acl.tokenRead (unmarshalTokenSecret stored).accessor_id
            = .error e ∧ isACLNotFoundError e = true)) := by
  constructor
  · have hInv' : Inv pfx family st' := by
      induction hsteps with
      | refl => exact h0
      | tail hab hbc ih => exact reconcileStep_inv pfx family hbc ih
    exact hInv'.2.1
  · intro acl sm tok hmem
    cases hget : sm.getSecretValue (secretName pfx family) with
    | error e =>
      rw [Upsert, hget] at hmem
      cases hmem
    | ok stored =>
      cases hrt : readCurrToken acl (unmarshalTokenSecret stored) with
      | error e =>
        rw [Upsert, hget] at hmem
        simp only [hrt] at hmem
        cases hmem
      | ok curr =>
        cases curr with
        | some t =>
          rw [Upsert, hget] at hmem
          simp only [hrt] at hmem
          cases hmem
        | none =>
          refine ⟨stored, rfl, ?_⟩
          by_cases ha : (unmarshalTokenSecret stored).accessor_id = ""
          · exact Or.inl ha
          · right
            rw [readCurrToken, if_pos ha] at hrt
            cases hread : acl.tokenRead
                (unmarshalTokenSecret stored).accessor_id with
            | ok tok' =>
              rw [hread] at hrt
              cases hrt
            | error e =>
              rw [hread] at hrt
              simp only [] at hrt
              by_cases hnf : isACLNotFoundError e = true
              · exact ⟨e, rfl, hnf⟩
              · rw [if_neg hnf] at hrt
                cases hrt

/-! ### Witnesses -/

theorem claim_C1_amended_witness :
    (liveFor ⟨[], [("p-web", .emptyObject)]⟩ "web").length ≤ 1 ∧
    (∀ (acl : ConsulACL) (sm : SecretsManager) (tok : ACLToken),
      Effect.tokenCreated tok ∈ (Upsert acl sm "p" "web").2 →
      ∃ stored, sm.getSecretValue (secretName "p" "web") = .ok stored ∧
        ((unmarshalTokenSecret stored).accessor_id = "" ∨
         ∃ e, acl.tokenRead (unmarshalTokenSecret stored).accessor_id
            = .error e ∧ isACLNotFoundError e = true)) :=
  claim_C1_amended_at_most_one_live "p" "web"
    ⟨[], [("p-web", .emptyObject)]⟩ ⟨[], [("p-web", .emptyObject)]⟩
    (by decide) Relation.ReflTransGen.refl

theorem claim_C2_witness :
    Upsert
      (stateACL ⟨[⟨"a1", "s1", "d", [⟨"web"⟩]⟩],
        [("p-web", .record "a1" "t1")]⟩ dummyToken)
      (stateSM ⟨[⟨"a1", "s1", "d", [⟨"web"⟩]⟩],
        [("p-web", .record "a1" "t1")]⟩)
      "p" "web" = (.ok (), []) :=
  claim_C2_upsert_idempotent _ _ "p" "web" (.record "a1" "t1")
    ⟨"a1", "s1", "d", [⟨"web"⟩]⟩ rfl (by decide) rfl

theorem claim_C4_witness :
    (isACLNotFoundError aclNotFoundMsg = true →
      Upsert (stateACL ⟨[], [("p-web", .record "a1" "t1")]⟩ dummyToken)
          (stateSM ⟨[], [("p-web", .record "a1" "t1")]⟩) "p" "web"
        = (wrapUpdateServiceTokenErr
            (updateServiceToken
              (stateACL ⟨[], [("p-web", .record "a1" "t1")]⟩ dummyToken)
              (stateSM ⟨[], [("p-web", .record "a1" "t1")]⟩) "p" "web").1,
           (updateServiceToken
              (stateACL ⟨[], [("p-web", .record "a1" "t1")]⟩ dummyToken)
              (stateSM ⟨[], [("p-web", .record "a1" "t1")]⟩) "p" "web").2)) ∧
    (isACLNotFoundError aclNotFoundMsg = false →
      Upsert (stateACL ⟨[], [("p-web", .record "a1" "t1")]⟩ dummyToken)
          (stateSM ⟨[], [("p-web", .record "a1" "t1")]⟩) "p" "web"
        = (.error ("reading existing token: " ++ aclNotFoundMsg), [])) :=
  claim_C4_read_error_discrimination _ _ "p" "web" (.record "a1" "t1")
    aclNotFoundMsg rfl (by decide) rfl

theorem claim_C7_amended_witness :
    Upsert (stateACL ⟨[], [("p-web", .emptyObject)]⟩ ⟨"a1", "s1", "", []⟩)
        (stateSM ⟨[], [("p-web", .emptyObject)]⟩) "p" "web"
      = (.ok (),
         [.tokenCreated ⟨"a1", "s1", "Token for web service", [⟨"web"⟩]⟩,
          .secretWritten "p-web" (.record "a1" "s1")]) ∧
    Upsert (stateACL ⟨[], []⟩ ⟨"a1", "s1", "", []⟩) (stateSM ⟨[], []⟩)
        "p" "web"
      = (.error
          "retrieving secret: ResourceNotFoundException: secret not found",
         []) :=
  claim_C7_amended_empty_object_issues ⟨[], [("p-web", .emptyObject)]⟩
    ⟨[], []⟩ "p" "web" ⟨"a1", "s1", "", []⟩ rfl rfl

theorem claim_C10_witness :
    (∀ key, assocFind (mergeMeta [("a", "1")] [("a", "2"), ("b", "3")]) key
      = ((assocFind [("a", "2"), ("b", "3")] key).rec
          (assocFind [("a", "1")] key) (fun v => some v))) ∧
    (∀ key v, (key = "task-id" ∨ key = "task-arn" ∨ key = "source") →
      assocFind [("task-id", "user-tid")] key = some v →
      assocFind (constructServiceRegistration
          ⟨⟨"svc", 80, [("task-id", "user-tid")], ""⟩, ⟨20000⟩, none⟩
          ⟨"fam", "arn1", "tid1", "10.0.0.9"⟩ "cluster").service.meta key
        = some v) :=
  claim_C10_mergeMeta_second_wins [("a", "1")] [("a", "2"), ("b", "3")]
    ⟨⟨"svc", 80, [("task-id", "user-tid")], ""⟩, ⟨20000⟩, none⟩
    ⟨"fam", "arn1", "tid1", "10.0.0.9"⟩ "cluster"
    (by decide) (by decide) (by decide)

theorem claim_C3_witness :
    listerList "c" "p"
      [[some ⟨"a/web:1", [⟨some meshTag, some "true"⟩]⟩,
        some ⟨"a/db:1", []⟩],
       [none, some ⟨"a/web:2", [⟨some meshTag, some "true"⟩]⟩,
        some ⟨"a/api:1", [⟨some meshTag, some "true"⟩]⟩]]
      = .ok ((dedupFrom []
          (meshFams ([[some ⟨"a/web:1", [⟨some meshTag, some "true"⟩]⟩,
              some ⟨"a/db:1", []⟩],
             [none, some ⟨"a/web:2", [⟨some meshTag, some "true"⟩]⟩,
              some ⟨"a/api:1", [⟨some meshTag, some "true"⟩]⟩]] :
            List (List (Option ECSTask))).flatten)).map
          (fun f => ⟨"c", "p", f⟩)) ∧
    listerList "c" "p"
      [[some ⟨"a/web:1", [⟨some meshTag, some "true"⟩]⟩,
        some ⟨"a/db:1", []⟩],
       [none, some ⟨"a/web:2", [⟨some meshTag, some "true"⟩]⟩,
        some ⟨"a/api:1", [⟨some meshTag, some "true"⟩]⟩]]
      = listerList "c" "p"
        [([[some ⟨"a/web:1", [⟨some meshTag, some "true"⟩]⟩,
            some ⟨"a/db:1", []⟩],
           [none, some ⟨"a/web:2", [⟨some meshTag, some "true"⟩]⟩,
            some ⟨"a/api:1", [⟨some meshTag, some "true"⟩]⟩]] :
          List (List (Option ECSTask))).flatten] :=
  claim_C3_pagination_exhaustive_dedup "c" "p"
    [[some ⟨"a/web:1", [⟨some meshTag, some "true"⟩]⟩,
      some ⟨"a/db:1", []⟩],
     [none, some ⟨"a/web:2", [⟨some meshTag, some "true"⟩]⟩,
      some ⟨"a/api:1", [⟨some meshTag, some "true"⟩]⟩]]
    (by decide)

theorem claim_C5_witness :
    ((deleteStep ⟨[⟨"a1", "s1", "d", [⟨"web"⟩]⟩],
        [("p-web", .record "a1" "t1")]⟩ "p" "web").2 = .ok () ∧
     liveFor (deleteStep ⟨[⟨"a1", "s1", "d", [⟨"web"⟩]⟩],
        [("p-web", .record "a1" "t1")]⟩ "p" "web").1 "web" = [] ∧
     assocFind (deleteStep ⟨[⟨"a1", "s1", "d", [⟨"web"⟩]⟩],
        [("p-web", .record "a1" "t1")]⟩ "p" "web").1.secrets
        (secretName "p" "web") = some .emptyObject) ∧
    (∀ toks : List ACLToken,
      DeleteTokenInfo
          (stateACL ⟨[⟨"a1", "s1", "d", [⟨"web"⟩]⟩],
            [("p-web", .record "a1" "t1")]⟩ dummyToken)
          (stateSM ⟨[⟨"a1", "s1", "d", [⟨"web"⟩]⟩],
            [("p-web", .record "a1" "t1")]⟩) "p" "web" toks
        = (.ok (),
           toks.map (fun tok => .tokenDeleted tok.accessorID)
             ++ [.secretWritten (secretName "p" "web") .emptyObject])) ∧
    (∀ (acl : ConsulACL) (sm : SecretsManager) (sn : String)
        (toks : List ACLToken) (e : ErrMsg),
      (deleteTokens acl toks).1 = .error e →
      (DeleteTokenInfo acl sm "p" sn toks).1 = .error e ∧
      ∀ n v, Effect.secretWritten n v ∉ (DeleteTokenInfo acl sm "p" sn toks).2) :=
  claim_C5_orphan_cleanup ⟨[⟨"a1", "s1", "d", [⟨"web"⟩]⟩],
    [("p-web", .record "a1" "t1")]⟩ "p" "web" (by decide)

theorem claim_C6_witness :
    TokenList (stateACL ⟨[⟨"a1", "s1", "d", [⟨"web"⟩]⟩,
        ⟨"a2", "s2", "d", []⟩, ⟨"a3", "s3", "d", [⟨"web"⟩, ⟨"api"⟩]⟩],
        []⟩ dummyToken)
      = .ok (tokensGroup [⟨"a1", "s1", "d", [⟨"web"⟩]⟩,
          ⟨"a2", "s2", "d", []⟩, ⟨"a3", "s3", "d", [⟨"web"⟩, ⟨"api"⟩]⟩]) ∧
    (∀ family, mapGet (tokensGroup [⟨"a1", "s1", "d", [⟨"web"⟩]⟩,
        ⟨"a2", "s2", "d", []⟩, ⟨"a3", "s3", "d", [⟨"web"⟩, ⟨"api"⟩]⟩]) family
      = List.filter (singlesFilter family) [⟨"a1", "s1", "d", [⟨"web"⟩]⟩,
          ⟨"a2", "s2", "d", []⟩, ⟨"a3", "s3", "d", [⟨"web"⟩, ⟨"api"⟩]⟩]) ∧
    (∀ family t,
      t ∈ ([⟨"a1", "s1", "d", [⟨"web"⟩]⟩, ⟨"a2", "s2", "d", []⟩,
        ⟨"a3", "s3", "d", [⟨"web"⟩, ⟨"api"⟩]⟩] : List ACLToken) →
      t.serviceIdentities.length ≠ 1 →
      t ∈ (deleteStep ⟨[⟨"a1", "s1", "d", [⟨"web"⟩]⟩,
        ⟨"a2", "s2", "d", []⟩, ⟨"a3", "s3", "d", [⟨"web"⟩, ⟨"api"⟩]⟩],
        []⟩ "p" family).1.tokens) :=
  claim_C6_single_claim_grouping ⟨[⟨"a1", "s1", "d", [⟨"web"⟩]⟩,
    ⟨"a2", "s2", "d", []⟩, ⟨"a3", "s3", "d", [⟨"web"⟩, ⟨"api"⟩]⟩], []⟩
    dummyToken "p" (by decide)

theorem claim_C8_witness :
    (((constructGatewayProxyRegistration
        ⟨⟨"", 0, [], ""⟩, ⟨0⟩, some ⟨"mesh-gateway", "gw",
          some ⟨"10.0.0.5", 8443⟩, none, [], ""⟩⟩
        ⟨"fam", "arn1", "tid1", "10.0.0.9"⟩ "cluster").getD
        ⟨"", [], "", ⟨"", "", "", "", 0, [], [], "", none⟩, "", true⟩).service.address
        = "10.0.0.5" ∧
     ((constructGatewayProxyRegistration
        ⟨⟨"", 0, [], ""⟩, ⟨0⟩, some ⟨"mesh-gateway", "gw",
          some ⟨"10.0.0.5", 8443⟩, none, [], ""⟩⟩
        ⟨"fam", "arn1", "tid1", "10.0.0.9"⟩ "cluster").getD
        ⟨"", [], "", ⟨"", "", "", "", 0, [], [], "", none⟩, "", true⟩).service.port
        = 8443 ∧
     ((constructGatewayProxyRegistration
        ⟨⟨"", 0, [], ""⟩, ⟨0⟩, some ⟨"mesh-gateway", "gw",
          some ⟨"10.0.0.5", 8443⟩, none, [], ""⟩⟩
        ⟨"fam", "arn1", "tid1", "10.0.0.9"⟩ "cluster").getD
        ⟨"", [], "", ⟨"", "", "", "", 0, [], [], "", none⟩, "", true⟩).service.taggedAddresses
        = [(TaggedAddressLAN, ⟨"10.0.0.5", 8443⟩)]) ∧
    assocFind
      ((constructGatewayProxyRegistration
        ⟨⟨"", 0, [], ""⟩, ⟨0⟩, some ⟨"mesh-gateway", "gw",
          none, some ⟨"203.0.113.7", 0⟩, [], ""⟩⟩
        ⟨"fam", "arn1", "tid1", "10.0.0.9"⟩ "cluster").getD
        ⟨"", [], "", ⟨"", "", "", "", 0, [], [], "", none⟩, "", true⟩).service.taggedAddresses
      TaggedAddressWAN
      = some ⟨"203.0.113.7",
          ((constructGatewayProxyRegistration
            ⟨⟨"", 0, [], ""⟩, ⟨0⟩, some ⟨"mesh-gateway", "gw",
              none, some ⟨"203.0.113.7", 0⟩, [], ""⟩⟩
            ⟨"fam", "arn1", "tid1", "10.0.0.9"⟩ "cluster").getD
            ⟨"", [], "", ⟨"", "", "", "", 0, [], [], "", none⟩, "", true⟩).service.port⟩ :=
  claim_C8_gateway_payload_shape
    ⟨⟨"", 0, [], ""⟩, ⟨0⟩, some ⟨"mesh-gateway", "gw",
      some ⟨"10.0.0.5", 8443⟩, none, [], ""⟩⟩
    ⟨⟨"", 0, [], ""⟩, ⟨0⟩, some ⟨"mesh-gateway", "gw",
      none, some ⟨"203.0.113.7", 0⟩, [], ""⟩⟩
    ⟨"mesh-gateway", "gw", some ⟨"10.0.0.5", 8443⟩, none, [], ""⟩
    ⟨"mesh-gateway", "gw", none, some ⟨"203.0.113.7", 0⟩, [], ""⟩
    ⟨"10.0.0.5", 8443⟩ ⟨"203.0.113.7", 0⟩
    ⟨"fam", "arn1", "tid1", "10.0.0.9"⟩ "cluster"
    ((constructGatewayProxyRegistration
      ⟨⟨"", 0, [], ""⟩, ⟨0⟩, some ⟨"mesh-gateway", "gw",
        some ⟨"10.0.0.5", 8443⟩, none, [], ""⟩⟩
      ⟨"fam", "arn1", "tid1", "10.0.0.9"⟩ "cluster").getD
      ⟨"", [], "", ⟨"", "", "", "", 0, [], [], "", none⟩, "", true⟩)
    ((constructGatewayProxyRegistration
      ⟨⟨"", 0, [], ""⟩, ⟨0⟩, some ⟨"mesh-gateway", "gw",
        none, some ⟨"203.0.113.7", 0⟩, [], ""⟩⟩
      ⟨"fam", "arn1", "tid1", "10.0.0.9"⟩ "cluster").getD
      ⟨"", [], "", ⟨"", "", "", "", 0, [], [], "", none⟩, "", true⟩)
    rfl rfl rfl (by decide) (by decide) rfl rfl rfl rfl rfl (by decide) rfl
    rfl

end ConsulEcs
